import Mathlib

/-!
Verification development for the gesture-control repository.

This file shallowly embeds the core runtime components:
 * `HoldManager` (src/app/handRecognition/hold_manager.py): gesture hold
   transition detection, modelled as a pure step function over the three
   per-hand dictionaries, emitting the hook invocations as an event trace.
 * `handleGesture` (src/app/gestureActions/actionHandler.py): per-gesture
   cooldown debounce over a last-trigger-time dictionary.
 * `ResultStore` (src/app/handRecognition/result_store.py): snapshot buffer,
   with an explicit heap for the (shared) landmark list objects so that
   shallow-versus-deep copying is observable.
 * `start_hold` / `stop_hold` (src/app/gestureActions/gestures.py): the OS
   press/release backend chain, with the environment (which backends are
   present and succeed) passed explicitly.
 * `_get_monitor_geometry` / `move_mouse_normalized`
   (src/app/input/mouse_control.py) and `Tracker.track_hand`
   (src/app/handRecognition/tracker.py): monitor selection and the
   fingertip-to-pixel mapping pipeline.

Python dictionaries are modelled as insertion-ordered association lists,
`time.time()` values as rationals supplied by the caller, and external
callables/backends as explicit boolean oracles.
-/

/-! ### Association lists (Python `dict` with insertion order) -/

/-- Lookup in an association list (first matching key), i.e. `d.get(k)`. -/
def alookup {κ α : Type} [DecidableEq κ] : List (κ × α) → κ → Option α
  | [], _ => none
  | p :: rest, k => if p.1 = k then some p.2 else alookup rest k

/-- `d[k] = v`: replace the first binding of `k`, or append a new one.
With distinct keys this is exactly Python dict assignment. -/
def ainsert {κ α : Type} [DecidableEq κ] : List (κ × α) → κ → α → List (κ × α)
  | [], k, v => [(k, v)]
  | p :: rest, k, v => if p.1 = k then (k, v) :: rest else p :: ainsert rest k v

/-- `d.pop(k, None)`: drop the first binding of `k`. -/
def aerase {κ α : Type} [DecidableEq κ] : List (κ × α) → κ → List (κ × α)
  | [], _ => []
  | p :: rest, k => if p.1 = k then rest else p :: aerase rest k

/-- `d.keys()`. -/
def akeys {κ α : Type} (m : List (κ × α)) : List κ := m.map (·.1)

/-- Well-formedness of a dict: its keys are distinct. -/
def anodup {κ α : Type} (m : List (κ × α)) : Prop := (akeys m).Nodup

theorem alookup_ainsert_self {κ α : Type} [DecidableEq κ] (m : List (κ × α)) (k : κ) (v : α) :
    alookup (ainsert m k v) k = some v := by
  induction m with
  | nil => simp [ainsert, alookup]
  | cons p rest ih =>
    by_cases h : p.1 = k
    · simp [ainsert, alookup, h]
    · simp [ainsert, alookup, h, ih]

theorem alookup_ainsert_ne {κ α : Type} [DecidableEq κ] (m : List (κ × α)) (k j : κ) (v : α)
    (h : j ≠ k) : alookup (ainsert m k v) j = alookup m j := by
  have h' : k ≠ j := Ne.symm h
  induction m with
  | nil => simp [ainsert, alookup, h']
  | cons p rest ih =>
    by_cases hp : p.1 = k
    · subst hp
      simp [ainsert, alookup, h']
    · simp [ainsert, alookup, hp, ih]

theorem alookup_aerase_ne {κ α : Type} [DecidableEq κ] (m : List (κ × α)) (k j : κ)
    (h : j ≠ k) : alookup (aerase m k) j = alookup m j := by
  have h' : k ≠ j := Ne.symm h
  induction m with
  | nil => simp [aerase]
  | cons p rest ih =>
    by_cases hp : p.1 = k
    · subst hp
      simp [aerase, alookup, h']
    · simp [aerase, alookup, hp, ih]

theorem alookup_eq_none_of_not_mem_keys {κ α : Type} [DecidableEq κ]
    (m : List (κ × α)) (k : κ) (h : k ∉ akeys m) : alookup m k = none := by
  induction m with
  | nil => simp [alookup]
  | cons p rest ih =>
    simp only [akeys, List.map_cons, List.mem_cons, not_or] at h
    have hp : p.1 ≠ k := fun hc => h.1 hc.symm
    simp [alookup, hp, ih (by simpa [akeys] using h.2)]

theorem alookup_aerase_self {κ α : Type} [DecidableEq κ] (m : List (κ × α)) (k : κ)
    (hnd : anodup m) : alookup (aerase m k) k = none := by
  induction m with
  | nil => simp [aerase, alookup]
  | cons p rest ih =>
    simp only [anodup, akeys, List.map_cons, List.nodup_cons] at hnd
    by_cases hp : p.1 = k
    · subst hp
      simpa [aerase] using alookup_eq_none_of_not_mem_keys rest p.1 (by simpa [akeys] using hnd.1)
    · simp [aerase, alookup, hp, ih hnd.2]

theorem ainsert_cons_self {κ α : Type} [DecidableEq κ] (p : κ × α) (rest : List (κ × α)) (v : α) :
    ainsert (p :: rest) p.1 v = (p.1, v) :: rest := by
  simp [ainsert]

theorem akeys_ainsert_subset {κ α : Type} [DecidableEq κ] (m : List (κ × α)) (k : κ) (v : α) :
    akeys (ainsert m k v) ⊆ k :: akeys m := by
  induction m with
  | nil => simp [ainsert, akeys]
  | cons p rest ih =>
    by_cases hp : p.1 = k
    · subst hp
      rw [ainsert_cons_self]
      intro x hx
      simp only [akeys, List.map_cons, List.mem_cons] at hx ⊢
      tauto
    · simp only [ainsert, if_neg hp]
      intro x hx
      simp only [akeys, List.map_cons, List.mem_cons] at hx ⊢
      rcases hx with h | h
      · tauto
      · have := ih h
        simp only [akeys, List.mem_cons] at this
        tauto

theorem anodup_ainsert {κ α : Type} [DecidableEq κ] (m : List (κ × α)) (k : κ) (v : α)
    (hnd : anodup m) : anodup (ainsert m k v) := by
  induction m with
  | nil => simp [ainsert, anodup, akeys]
  | cons p rest ih =>
    simp only [anodup, akeys, List.map_cons, List.nodup_cons] at hnd
    by_cases hp : p.1 = k
    · subst hp
      rw [ainsert_cons_self]
      simp only [anodup, akeys, List.map_cons, List.nodup_cons]
      exact ⟨by simpa [akeys] using hnd.1, hnd.2⟩
    · simp only [ainsert, if_neg hp, anodup, akeys, List.map_cons, List.nodup_cons]
      constructor
      · intro hmem
        have := akeys_ainsert_subset rest k v hmem
        simp only [List.mem_cons] at this
        rcases this with h | h
        · exact hp h
        · exact hnd.1 h
      · exact ih hnd.2

theorem akeys_aerase_subset {κ α : Type} [DecidableEq κ] (m : List (κ × α)) (k : κ) :
    akeys (aerase m k) ⊆ akeys m := by
  induction m with
  | nil => simp [aerase]
  | cons p rest ih =>
    by_cases hp : p.1 = k
    · simp only [aerase, if_pos hp]
      intro x hx
      simp only [akeys, List.map_cons, List.mem_cons]
      tauto
    · simp only [aerase, if_neg hp]
      intro x hx
      simp only [akeys, List.map_cons, List.mem_cons] at hx ⊢
      rcases hx with h | h
      · tauto
      · exact Or.inr (ih h)

theorem anodup_aerase {κ α : Type} [DecidableEq κ] (m : List (κ × α)) (k : κ)
    (hnd : anodup m) : anodup (aerase m k) := by
  induction m with
  | nil => simp [aerase, anodup, akeys]
  | cons p rest ih =>
    simp only [anodup, akeys, List.map_cons, List.nodup_cons] at hnd
    by_cases hp : p.1 = k
    · simpa [aerase, hp, anodup] using hnd.2
    · simp only [aerase, if_neg hp, anodup, akeys, List.map_cons, List.nodup_cons]
      exact ⟨fun hmem => hnd.1 (akeys_aerase_subset rest k hmem), ih hnd.2⟩

/-! ### HoldManager (src/app/handRecognition/hold_manager.py)

The constructor arguments of `HoldManager` are never mutated after
`__init__`, so they are split off into `HoldConfig`; the three per-hand
dictionaries form the mutable state `HoldMState`.  The `start_hold` /
`stop_hold` hooks are external callables: an invocation is recorded as a
`HoldEvent` in the returned trace, and the truthiness of the value returned
by a `start_hold` invocation is supplied per-frame by the oracle
`HoldFrame.startRes` (the hook is modelled with its documented
`(handedness=..., handIndex=...)` signature, so each logical press attempt
is a single invocation, and hooks are modelled as returning rather than
raising -- exceptions are caught and logged by the Python code anyway). -/

/-- Constructor-time configuration of a `HoldManager`.  The `*_callable`
flags state whether the corresponding hook is a callable (versus `None`). -/
structure HoldConfig where
  start_callable : Bool
  stop_callable : Bool
  hold_gesture_name : String
  restart_cooldown : ℚ

/-- The mutable per-hand dictionaries of a `HoldManager`. -/
structure HoldMState where
  prev_gestures : List (Nat × String)
  last_start_ts : List (Nat × ℚ)
  holding : List (Nat × Bool)
deriving DecidableEq

/-- The empty state a fresh `HoldManager` starts with. -/
def holdInit : HoldMState := ⟨[], [], []⟩

/-- One hook invocation performed by `HoldManager.update`. -/
inductive HoldEvent where
  | startHold (hi : Nat) (hand : Option String)
  | stopHold (hi : Nat)
deriving DecidableEq

/-- The hand index an event belongs to. -/
def evHand : HoldEvent → Nat
  | .startHold hi _ => hi
  | .stopHold hi => hi

/-- The per-frame input of `HoldManager.update`: the normalized `gestures`
and `handedness` sequences, the length of the `landmarks` sequence (only its
length is read), the current `time.time()` value, and the truthiness of what
the `start_hold` hook would return for each hand this frame. -/
structure HoldFrame where
  now : ℚ
  gestures : List (Option String)
  handedness : List (Option String)
  numLandmarks : Nat
  startRes : Nat → Bool

/-- The body of the `for hi in indices` loop of `HoldManager.update` for a
single hand index `hi`: detect enter/exit transitions of the hold gesture,
invoke the hooks, and update the per-hand dictionaries. -/
def processHand (cfg : HoldConfig) (s : HoldMState) (now : ℚ)
    (gestures handedness : List (Option String)) (startRes : Bool) (hi : Nat) :
    HoldMState × List HoldEvent :=
  let prev := alookup s.prev_gestures hi
  let curr := gestures.getD hi none
  let hand_name := handedness.getD hi none
  -- Entering hold
  let step1 : HoldMState × List HoldEvent :=
    if prev ≠ some cfg.hold_gesture_name ∧ curr = some cfg.hold_gesture_name then
      if cfg.restart_cooldown ≤ now - ((alookup s.last_start_ts hi).getD 0) then
        if cfg.start_callable then
          ({ s with
              holding :=
                if startRes then ainsert s.holding hi true
                else if alookup s.holding hi = none then ainsert s.holding hi true
                else s.holding,
              last_start_ts := ainsert s.last_start_ts hi now },
           [HoldEvent.startHold hi hand_name])
        else
          ({ s with last_start_ts := ainsert s.last_start_ts hi now }, [])
      else (s, [])
    else (s, [])
  let s1 := step1.1
  -- Exiting hold
  let step2 : HoldMState × List HoldEvent :=
    if prev = some cfg.hold_gesture_name ∧ curr ≠ some cfg.hold_gesture_name then
      if cfg.stop_callable then
        ({ s1 with holding := ainsert s1.holding hi false,
                   last_start_ts := aerase s1.last_start_ts hi },
         [HoldEvent.stopHold hi])
      else
        ({ s1 with last_start_ts := aerase s1.last_start_ts hi }, [])
    else (s1, [])
  let s2 := step2.1
  -- Update prev tracking
  let s3 : HoldMState :=
    match curr with
    | some g => { s2 with prev_gestures := ainsert s2.prev_gestures hi g }
    | none => { s2 with prev_gestures := aerase s2.prev_gestures hi }
  (s3, step1.2 ++ step2.2)

/-- Iterate `processHand` over the hand indices of a frame, concatenating
the emitted hook invocations. -/
def foldHands (cfg : HoldConfig) (now : ℚ) (gestures handedness : List (Option String))
    (res : Nat → Bool) : List Nat → HoldMState → HoldMState × List HoldEvent
  | [], s => (s, [])
  | hi :: rest, s =>
    let r1 := processHand cfg s now gestures handedness (res hi) hi
    let r2 := foldHands cfg now gestures handedness res rest r1.1
    (r2.1, r1.2 ++ r2.2)

/-- The hand indices `HoldManager.update` iterates over: `range(max_hands)`,
or the sorted previously-seen indices when no hand is detected at all. -/
def updateIndices (s : HoldMState) (fr : HoldFrame) : List Nat :=
  let max_hands := max fr.gestures.length fr.numLandmarks
  if max_hands = 0 ∧ s.prev_gestures ≠ [] then
    (akeys s.prev_gestures).insertionSort (· ≤ ·)
  else
    List.range max_hands

/-- `HoldManager.update(gestures, handedness, landmarks)`: returns the new
state together with the trace of hook invocations performed. -/
def hmUpdate (cfg : HoldConfig) (s : HoldMState) (fr : HoldFrame) :
    HoldMState × List HoldEvent :=
  foldHands cfg fr.now fr.gestures fr.handedness fr.startRes (updateIndices s fr) s

/-- Feed a sequence of frames through `HoldManager.update`. -/
def runFrames (cfg : HoldConfig) : HoldMState → List HoldFrame → HoldMState × List HoldEvent
  | s, [] => (s, [])
  | s, fr :: rest =>
    let r1 := hmUpdate cfg s fr
    let r2 := runFrames cfg r1.1 rest
    (r2.1, r1.2 ++ r2.2)

/-- `HoldManager.release_all()`: when the stop hook is callable it is
invoked once (exceptions caught) and the `finally` block clears all three
dictionaries; when it is not callable, only `_holding` is cleared. -/
def releaseAll (cfg : HoldConfig) (s : HoldMState) : HoldMState :=
  if cfg.stop_callable then ⟨[], [], []⟩
  else { s with holding := [] }

/-! ### Trace predicates for the hold invariant (C1) -/

/-- Scan a trace checking that, for hand `hi`, no second `startHold` occurs
while a previous `startHold` has not been answered by a `stopHold`.
`pending` records whether a start for `hi` is currently unanswered. -/
def noDoubleStart (hi : Nat) : Bool → List HoldEvent → Bool
  | _, [] => true
  | pending, HoldEvent.startHold j _ :: rest =>
    if j = hi then !pending && noDoubleStart hi true rest
    else noDoubleStart hi pending rest
  | pending, HoldEvent.stopHold j :: rest =>
    if j = hi then noDoubleStart hi false rest
    else noDoubleStart hi pending rest

/-- The `pending` flag for hand `hi` after scanning a trace. -/
def pendingAfter (hi : Nat) : Bool → List HoldEvent → Bool
  | p, [] => p
  | p, HoldEvent.startHold j _ :: rest => pendingAfter hi (if j = hi then true else p) rest
  | p, HoldEvent.stopHold j :: rest => pendingAfter hi (if j = hi then false else p) rest

theorem pendingAfter_append (hi : Nat) (p : Bool) (a b : List HoldEvent) :
    pendingAfter hi p (a ++ b) = pendingAfter hi (pendingAfter hi p a) b := by
  induction a generalizing p with
  | nil => simp [pendingAfter]
  | cons e rest ih =>
    cases e with
    | startHold j hand => simp [pendingAfter, ih]
    | stopHold j => simp [pendingAfter, ih]

theorem noDoubleStart_append (hi : Nat) (p : Bool) (a b : List HoldEvent) :
    noDoubleStart hi p (a ++ b) =
      (noDoubleStart hi p a && noDoubleStart hi (pendingAfter hi p a) b) := by
  induction a generalizing p with
  | nil => simp [noDoubleStart, pendingAfter]
  | cons e rest ih =>
    cases e with
    | startHold j hand =>
      by_cases hj : j = hi <;>
        simp [noDoubleStart, pendingAfter, hj, ih, Bool.and_assoc]
    | stopHold j =>
      by_cases hj : j = hi <;> simp [noDoubleStart, pendingAfter, hj, ih]

theorem noDouble_no_hi (hi : Nat) (p : Bool) (l : List HoldEvent)
    (h : ∀ e ∈ l, evHand e ≠ hi) :
    noDoubleStart hi p l = true ∧ pendingAfter hi p l = p := by
  induction l generalizing p with
  | nil => simp [noDoubleStart, pendingAfter]
  | cons e rest ih =>
    have he : evHand e ≠ hi := h e (by simp)
    have hrest : ∀ e ∈ rest, evHand e ≠ hi := fun e hm => h e (by simp [hm])
    cases e with
    | startHold j hand =>
      simp only [evHand] at he
      simp [noDoubleStart, pendingAfter, he, ih _ hrest]
    | stopHold j =>
      simp only [evHand] at he
      simp [noDoubleStart, pendingAfter, he, ih _ hrest]

/-! ### Characterizations of `processHand` -/

/-- `prev_gestures` after `processHand`: set to the current gesture, or
dropped when the frame reports no gesture for that hand. -/
theorem processHand_prev (cfg : HoldConfig) (s : HoldMState) (now : ℚ)
    (g hs : List (Option String)) (r : Bool) (hi : Nat) :
    (processHand cfg s now g hs r hi).1.prev_gestures =
      match g.getD hi none with
      | some v => ainsert s.prev_gestures hi v
      | none => aerase s.prev_gestures hi := by
  simp only [processHand]
  cases hc : g.getD hi none <;> simp only [hc] <;> split_ifs <;> rfl

/-- All hook invocations performed by `processHand` for hand `hi` carry
hand index `hi`. -/
theorem processHand_events_hand (cfg : HoldConfig) (s : HoldMState) (now : ℚ)
    (g hs : List (Option String)) (r : Bool) (hi : Nat) :
    ∀ e ∈ (processHand cfg s now g hs r hi).2, evHand e = hi := by
  simp only [processHand]
  split_ifs <;> simp [evHand]

/-- The trace emitted by `processHand`, as a function of the transition
conditions. -/
theorem processHand_events (cfg : HoldConfig) (s : HoldMState) (now : ℚ)
    (g hs : List (Option String)) (r : Bool) (hi : Nat) :
    (processHand cfg s now g hs r hi).2 =
      (if alookup s.prev_gestures hi ≠ some cfg.hold_gesture_name ∧
          g.getD hi none = some cfg.hold_gesture_name then
        if cfg.restart_cooldown ≤ now - ((alookup s.last_start_ts hi).getD 0) then
          if cfg.start_callable then [HoldEvent.startHold hi (hs.getD hi none)] else []
        else []
      else []) ++
      (if alookup s.prev_gestures hi = some cfg.hold_gesture_name ∧
          g.getD hi none ≠ some cfg.hold_gesture_name then
        if cfg.stop_callable then [HoldEvent.stopHold hi] else []
      else []) := by
  simp only [processHand]
  split_ifs <;> rfl

theorem alookup_processHand_prev_other (cfg : HoldConfig) (s : HoldMState) (now : ℚ)
    (g hs : List (Option String)) (r : Bool) (j hi : Nat) (hne : hi ≠ j) :
    alookup (processHand cfg s now g hs r j).1.prev_gestures hi =
      alookup s.prev_gestures hi := by
  rw [processHand_prev]
  cases g.getD j none <;>
    simp [alookup_ainsert_ne _ _ _ _ hne, alookup_aerase_ne _ _ _ hne]

theorem processHand_nodup (cfg : HoldConfig) (s : HoldMState) (now : ℚ)
    (g hs : List (Option String)) (r : Bool) (hi : Nat)
    (hnd : anodup s.prev_gestures) :
    anodup (processHand cfg s now g hs r hi).1.prev_gestures := by
  rw [processHand_prev]
  cases g.getD hi none <;> simp [anodup_ainsert, anodup_aerase, hnd]

/-- The hand's previous gesture is remembered as the hold gesture. -/
def prevHold (cfg : HoldConfig) (s : HoldMState) (hi : Nat) : Prop :=
  alookup s.prev_gestures hi = some cfg.hold_gesture_name

/-- Single-hand step of the no-double-press invariant: with both hooks
callable, processing hand `hi` keeps the trace double-press free, and a
pending unanswered start implies the remembered gesture is the hold one. -/
theorem processHand_same (cfg : HoldConfig) (s : HoldMState) (now : ℚ)
    (g hs : List (Option String)) (r : Bool) (hi : Nat)
    (hsc : cfg.start_callable = true) (htc : cfg.stop_callable = true)
    (p : Bool) (hp : p = true → prevHold cfg s hi) :
    noDoubleStart hi p (processHand cfg s now g hs r hi).2 = true ∧
    (pendingAfter hi p (processHand cfg s now g hs r hi).2 = true →
      prevHold cfg (processHand cfg s now g hs r hi).1 hi) := by
  by_cases hcur : g.getD hi none = some cfg.hold_gesture_name
  · -- current frame shows the hold gesture: prev is set to it afterwards
    have hcur' : g[hi]?.getD none = some cfg.hold_gesture_name := by
      simpa [List.getD_eq_getElem?_getD] using hcur
    have hres : prevHold cfg (processHand cfg s now g hs r hi).1 hi := by
      unfold prevHold
      rw [processHand_prev, hcur]
      exact alookup_ainsert_self _ _ _
    refine ⟨?_, fun _ => hres⟩
    rw [processHand_events]
    by_cases hprev : alookup s.prev_gestures hi = some cfg.hold_gesture_name
    · simp [hprev, hcur', noDoubleStart]
    · have hpf : p = false := by
        cases p with
        | false => rfl
        | true => exact absurd (hp rfl) hprev
      subst hpf
      simp only [hprev, hcur', htc, hsc]
      split_ifs <;> simp [noDoubleStart]
  · -- no hold gesture this frame: at most a stop event is emitted
    have hcur' : ¬g[hi]?.getD none = some cfg.hold_gesture_name := by
      simpa [List.getD_eq_getElem?_getD] using hcur
    rw [processHand_events]
    by_cases hprev : alookup s.prev_gestures hi = some cfg.hold_gesture_name
    · simp [hprev, hcur', htc, noDoubleStart, pendingAfter]
    · have hpf : p = false := by
        cases p with
        | false => rfl
        | true => exact absurd (hp rfl) hprev
      subst hpf
      simp [hprev, hcur', noDoubleStart, pendingAfter]

/-! ### Fold- and run-level invariants -/

theorem foldHands_not_mem (cfg : HoldConfig) (now : ℚ) (g hs : List (Option String))
    (res : Nat → Bool) (hi : Nat) :
    ∀ (idxs : List Nat) (s : HoldMState), hi ∉ idxs →
    alookup (foldHands cfg now g hs res idxs s).1.prev_gestures hi =
      alookup s.prev_gestures hi ∧
    ∀ e ∈ (foldHands cfg now g hs res idxs s).2, evHand e ≠ hi := by
  intro idxs
  induction idxs with
  | nil =>
    intro s _
    simp [foldHands]
  | cons j rest ih =>
    intro s hmem
    simp only [List.mem_cons, not_or] at hmem
    have hne : hi ≠ j := hmem.1
    simp only [foldHands]
    refine ⟨?_, ?_⟩
    · rw [(ih _ hmem.2).1, alookup_processHand_prev_other _ _ _ _ _ _ _ _ hne]
    · intro e he
      simp only [List.mem_append] at he
      rcases he with he | he
      · rw [processHand_events_hand cfg s now g hs (res j) j e he]
        exact Ne.symm hne
      · exact (ih _ hmem.2).2 e he

theorem foldHands_nodup (cfg : HoldConfig) (now : ℚ) (g hs : List (Option String))
    (res : Nat → Bool) :
    ∀ (idxs : List Nat) (s : HoldMState), anodup s.prev_gestures →
    anodup (foldHands cfg now g hs res idxs s).1.prev_gestures := by
  intro idxs
  induction idxs with
  | nil => intro s hnd; simpa [foldHands] using hnd
  | cons j rest ih =>
    intro s hnd
    simp only [foldHands]
    exact ih _ (processHand_nodup cfg s now g hs (res j) j hnd)

theorem foldHands_inv (cfg : HoldConfig) (now : ℚ) (g hs : List (Option String))
    (res : Nat → Bool) (hi : Nat)
    (hsc : cfg.start_callable = true) (htc : cfg.stop_callable = true) :
    ∀ (idxs : List Nat) (s : HoldMState) (p : Bool), idxs.Nodup →
    (p = true → prevHold cfg s hi) →
    noDoubleStart hi p (foldHands cfg now g hs res idxs s).2 = true ∧
    (pendingAfter hi p (foldHands cfg now g hs res idxs s).2 = true →
      prevHold cfg (foldHands cfg now g hs res idxs s).1 hi) := by
  intro idxs
  induction idxs with
  | nil =>
    intro s p _ hp
    exact ⟨by simp [foldHands, noDoubleStart], by simpa [foldHands, pendingAfter] using hp⟩
  | cons j rest ih =>
    intro s p hnd hp
    have hjr : j ∉ rest := (List.nodup_cons.mp hnd).1
    have hndr : rest.Nodup := (List.nodup_cons.mp hnd).2
    simp only [foldHands, noDoubleStart_append, pendingAfter_append]
    by_cases hj : j = hi
    · subst hj
      obtain ⟨h1a, h1b⟩ := processHand_same cfg s now g hs (res j) j hsc htc p hp
      obtain ⟨h2a, h2b⟩ :=
        foldHands_not_mem cfg now g hs res j rest (processHand cfg s now g hs (res j) j).1 hjr
      obtain ⟨h3a, h3b⟩ := noDouble_no_hi j
        (pendingAfter j p (processHand cfg s now g hs (res j) j).2)
        (foldHands cfg now g hs res rest (processHand cfg s now g hs (res j) j).1).2 h2b
      refine ⟨by rw [h1a, h3a]; rfl, ?_⟩
      intro hpend
      rw [h3b] at hpend
      unfold prevHold
      rw [h2a]
      exact h1b hpend
    · have hne : hi ≠ j := Ne.symm hj
      obtain ⟨h1a, h1b⟩ := noDouble_no_hi hi p (processHand cfg s now g hs (res j) j).2
        (fun e he => by rw [processHand_events_hand cfg s now g hs (res j) j e he]; exact hj)
      have hp1 : p = true → prevHold cfg (processHand cfg s now g hs (res j) j).1 hi := by
        intro hpt
        unfold prevHold
        rw [alookup_processHand_prev_other _ _ _ _ _ _ _ _ hne]
        exact hp hpt
      obtain ⟨h2a, h2b⟩ := ih (processHand cfg s now g hs (res j) j).1 p hndr hp1
      rw [h1a, h1b]
      exact ⟨by rw [h2a]; rfl, h2b⟩

/-- The index list of a frame has no duplicates. -/
theorem updateIndices_nodup (s : HoldMState) (fr : HoldFrame)
    (hnd : anodup s.prev_gestures) : (updateIndices s fr).Nodup := by
  simp only [updateIndices]
  split_ifs with h
  · exact ((List.perm_insertionSort _ _).nodup_iff).mpr hnd
  · exact List.nodup_range _

theorem hmUpdate_inv (cfg : HoldConfig) (s : HoldMState) (fr : HoldFrame) (hi : Nat)
    (p : Bool) (hsc : cfg.start_callable = true) (htc : cfg.stop_callable = true)
    (hnd : anodup s.prev_gestures) (hp : p = true → prevHold cfg s hi) :
    noDoubleStart hi p (hmUpdate cfg s fr).2 = true ∧
    (pendingAfter hi p (hmUpdate cfg s fr).2 = true →
      prevHold cfg (hmUpdate cfg s fr).1 hi) ∧
    anodup (hmUpdate cfg s fr).1.prev_gestures := by
  obtain ⟨ha, hb⟩ := foldHands_inv cfg fr.now fr.gestures fr.handedness fr.startRes hi hsc htc
    (updateIndices s fr) s p (updateIndices_nodup s fr hnd) hp
  exact ⟨ha, hb, foldHands_nodup cfg fr.now fr.gestures fr.handedness fr.startRes _ s hnd⟩

theorem runFrames_inv (cfg : HoldConfig) (hi : Nat)
    (hsc : cfg.start_callable = true) (htc : cfg.stop_callable = true) :
    ∀ (frames : List HoldFrame) (s : HoldMState) (p : Bool), anodup s.prev_gestures →
    (p = true → prevHold cfg s hi) →
    noDoubleStart hi p (runFrames cfg s frames).2 = true := by
  intro frames
  induction frames with
  | nil =>
    intro s p _ _
    simp [runFrames, noDoubleStart]
  | cons fr rest ih =>
    intro s p hnd hp
    obtain ⟨ha, hb, hc⟩ := hmUpdate_inv cfg s fr hi p hsc htc hnd hp
    simp only [runFrames, noDoubleStart_append]
    rw [ha, ih (hmUpdate cfg s fr).1 (pendingAfter hi p (hmUpdate cfg s fr).2) hc hb]
    rfl

/-- C1: Hold-State Manager invariant.  For any hand index and any sequence
of per-frame inputs fed through `HoldManager.update` of a fresh manager with
callable start and stop hooks, the emitted hook-invocation trace never
contains two `start_hold` invocations for that hand without an intervening
`stop_hold` invocation for it. -/
theorem holdManager_no_double_start (cfg : HoldConfig) (frames : List HoldFrame) (hi : Nat)
    (hsc : cfg.start_callable = true) (htc : cfg.stop_callable = true) :
    noDoubleStart hi false (runFrames cfg holdInit frames).2 = true :=
  runFrames_inv cfg hi hsc htc frames holdInit false
    (by simp [holdInit, anodup, akeys]) (by simp)

/-- Witness for C1 at a concrete configuration and frame sequence. -/
theorem holdManager_no_double_start_witness :
    (HoldConfig.mk true true "03_fist" (1/10)).start_callable = true ∧
    (HoldConfig.mk true true "03_fist" (1/10)).stop_callable = true ∧
    noDoubleStart 0 false
      (runFrames (HoldConfig.mk true true "03_fist" (1/10)) holdInit
        [⟨1, [some "03_fist"], [some "Right"], 1, fun _ => true⟩,
         ⟨2, [none], [], 0, fun _ => true⟩,
         ⟨3, [some "03_fist"], [some "Right"], 1, fun _ => true⟩]).2 = true :=
  ⟨rfl, rfl,
    holdManager_no_double_start (HoldConfig.mk true true "03_fist" (1/10))
      [⟨1, [some "03_fist"], [some "Right"], 1, fun _ => true⟩,
       ⟨2, [none], [], 0, fun _ => true⟩,
       ⟨3, [some "03_fist"], [some "Right"], 1, fun _ => true⟩] 0 rfl rfl⟩

/-! ### C2: one press and one release for a fist run -/

/-- `HoldManager()` with its default arguments (hold gesture `"03_fist"`,
restart cooldown `0.1`) and both hooks callable. -/
def defaultHoldConfig : HoldConfig := ⟨true, true, "03_fist", 1/10⟩

/-- A frame for a single hand reporting gesture `g` at time `t` (no
handedness, no landmarks; the start hook reports success). -/
def oneHandFrame (t : ℚ) (g : Option String) : HoldFrame :=
  ⟨t, [g], [], 0, fun _ => true⟩

/-- The manager state reached after the first fist frame at time 1. -/
def midState : HoldMState := ⟨[(0, "03_fist")], [(0, 1)], [(0, true)]⟩

/-- The C2 scenario: no gesture at time 0, then `k` consecutive fist frames
at times 1..k, then no gesture. -/
def fistRunFrames (k : Nat) : List HoldFrame :=
  oneHandFrame 0 none ::
    ((List.range k).map fun i : ℕ => oneHandFrame ((i : ℚ) + 1) (some "03_fist")) ++
      [oneHandFrame ((k : ℚ) + 1) none]

theorem hmUpdate_first_none :
    hmUpdate defaultHoldConfig holdInit (oneHandFrame 0 none) = (holdInit, []) := by
  norm_num [hmUpdate, updateIndices, foldHands, processHand, oneHandFrame, defaultHoldConfig,
    holdInit, alookup, ainsert, aerase, akeys]

theorem hmUpdate_fist_first :
    hmUpdate defaultHoldConfig holdInit (oneHandFrame 1 (some "03_fist")) =
      (midState, [HoldEvent.startHold 0 none]) := by
  norm_num [hmUpdate, updateIndices, foldHands, processHand, oneHandFrame, defaultHoldConfig,
    holdInit, midState, alookup, ainsert, aerase, akeys]
  simp

theorem hmUpdate_fist_mid (t : ℚ) :
    hmUpdate defaultHoldConfig midState (oneHandFrame t (some "03_fist")) = (midState, []) := by
  norm_num [hmUpdate, updateIndices, foldHands, processHand, oneHandFrame, defaultHoldConfig,
    midState, alookup, ainsert, aerase, akeys]

theorem hmUpdate_fist_last (t : ℚ) :
    hmUpdate defaultHoldConfig midState (oneHandFrame t none) =
      (⟨[], [], [(0, false)]⟩, [HoldEvent.stopHold 0]) := by
  norm_num [hmUpdate, updateIndices, foldHands, processHand, oneHandFrame, defaultHoldConfig,
    midState, alookup, ainsert, aerase, akeys]
  simp

theorem runFrames_append (cfg : HoldConfig) (s : HoldMState) (a b : List HoldFrame) :
    runFrames cfg s (a ++ b) =
      ((runFrames cfg (runFrames cfg s a).1 b).1,
       (runFrames cfg s a).2 ++ (runFrames cfg (runFrames cfg s a).1 b).2) := by
  induction a generalizing s with
  | nil => simp [runFrames]
  | cons fr a ih => simp [runFrames, ih]

/-- Running the leading `j` fist frames (times 1..j) from a fresh manager
transitions to `midState` and performs exactly one `start_hold`. -/
theorem runFrames_fist_from_init :
    ∀ j, 1 ≤ j →
      runFrames defaultHoldConfig holdInit
        ((List.range j).map fun i : ℕ => oneHandFrame ((i : ℚ) + 1) (some "03_fist")) =
      (midState, [HoldEvent.startHold 0 none]) := by
  intro j
  induction j with
  | zero => omega
  | succ j ih =>
    intro _
    by_cases hj : 1 ≤ j
    · rw [List.range_succ, List.map_append, runFrames_append, ih hj]
      simp [runFrames, hmUpdate_fist_mid]
    · have hj0 : j = 0 := by omega
      subst hj0
      have hcast : ((0 : ℕ) : ℚ) + 1 = 1 := by norm_num
      simp only [show List.range 1 = [0] from rfl, List.map_cons, List.map_nil, hcast,
        runFrames, hmUpdate_fist_first]
      simp

/-- C2: feeding the per-frame gesture sequence `[None] ++ ["03_fist"] * k ++
[None]` (k ≥ 1) to a fresh `HoldManager` with callable hooks invokes
`start_hold` exactly once and `stop_hold` exactly once, in that order,
regardless of the number `k` of consecutive hold-gesture frames. -/
theorem holdManager_single_press_single_release (k : Nat) (hk : 1 ≤ k) :
    (runFrames defaultHoldConfig holdInit (fistRunFrames k)).2 =
      [HoldEvent.startHold 0 none, HoldEvent.stopHold 0] := by
  have hsplit : fistRunFrames k =
      [oneHandFrame 0 none] ++
        (((List.range k).map fun i : ℕ => oneHandFrame ((i : ℚ) + 1) (some "03_fist")) ++
          [oneHandFrame ((k : ℚ) + 1) none]) := rfl
  rw [hsplit, runFrames_append, runFrames_append]
  have h0 : runFrames defaultHoldConfig holdInit [oneHandFrame 0 none] = (holdInit, []) := by
    simp [runFrames, hmUpdate_first_none]
  rw [h0]
  simp only [runFrames_fist_from_init k hk]
  simp [runFrames, hmUpdate_fist_last]

/-- Witness for C2 at the claim's concrete sequence (three fist frames). -/
theorem holdManager_single_press_single_release_witness :
    1 ≤ 3 ∧
    (runFrames defaultHoldConfig holdInit (fistRunFrames 3)).2 =
      [HoldEvent.startHold 0 none, HoldEvent.stopHold 0] :=
  ⟨by decide, holdManager_single_press_single_release 3 (by decide)⟩

/-! ### C7: clearing of the remembered previous gesture -/

theorem foldHands_clears (cfg : HoldConfig) (now : ℚ) (g hs : List (Option String))
    (res : Nat → Bool) (hi : Nat) (hg : g.getD hi none = none) :
    ∀ (idxs : List Nat) (s : HoldMState), idxs.Nodup → anodup s.prev_gestures → hi ∈ idxs →
    alookup (foldHands cfg now g hs res idxs s).1.prev_gestures hi = none := by
  intro idxs
  induction idxs with
  | nil =>
    intro s _ _ hmem
    simp at hmem
  | cons j rest ih =>
    intro s hnd hand hmem
    have hjr : j ∉ rest := (List.nodup_cons.mp hnd).1
    have hndr : rest.Nodup := (List.nodup_cons.mp hnd).2
    simp only [foldHands]
    by_cases hj : j = hi
    · subst hj
      have hnone : alookup (processHand cfg s now g hs (res j) j).1.prev_gestures j = none := by
        rw [processHand_prev, hg]
        exact alookup_aerase_self _ _ hand
      rw [(foldHands_not_mem cfg now g hs res j rest _ hjr).1, hnone]
    · have hmem' : hi ∈ rest := by
        rcases List.mem_cons.mp hmem with h | h
        · exact absurd h.symm hj
        · exact h
      exact ih _ hndr (processHand_nodup cfg s now g hs (res j) j hand) hmem'

/-- C7 (amended): for hand indices the update actually iterates over
(`0 ≤ hi < max(len(gestures), len(landmarks))`, or the previously-seen
indices when that max is 0), a frame reporting no gesture for the hand
(`None` slot or out-of-range slot) clears the remembered previous gesture;
a previously observed hand index outside the iterated range keeps its
remembered gesture unchanged. -/
theorem holdManager_clears_prev (cfg : HoldConfig) (s : HoldMState) (fr : HoldFrame)
    (hi : Nat) (hnd : anodup s.prev_gestures) :
    (hi ∈ updateIndices s fr → fr.gestures.getD hi none = none →
      alookup (hmUpdate cfg s fr).1.prev_gestures hi = none) ∧
    (hi ∉ updateIndices s fr →
      alookup (hmUpdate cfg s fr).1.prev_gestures hi = alookup s.prev_gestures hi) := by
  constructor
  · intro hmem hg
    exact foldHands_clears cfg fr.now fr.gestures fr.handedness fr.startRes hi hg
      (updateIndices s fr) s (updateIndices_nodup s fr hnd) hnd hmem
  · intro hmem
    exact (foldHands_not_mem cfg fr.now fr.gestures fr.handedness fr.startRes hi
      (updateIndices s fr) s hmem).1

/-- Witness for C7 (amended) at a concrete frame. -/
theorem holdManager_clears_prev_witness :
    anodup holdInit.prev_gestures ∧
    0 ∈ updateIndices holdInit (oneHandFrame 5 none) ∧
    (oneHandFrame 5 none).gestures.getD 0 none = none ∧
    alookup (hmUpdate defaultHoldConfig holdInit (oneHandFrame 5 none)).1.prev_gestures 0 =
      none :=
  ⟨by simp [anodup, akeys, holdInit], by decide, rfl,
    (holdManager_clears_prev defaultHoldConfig holdInit (oneHandFrame 5 none) 0
      (by simp [anodup, akeys, holdInit])).1 (by decide) rfl⟩

/-- C7 counterexample: hand 1 is observed holding `"03_fist"`; the next
update reports gestures only for hand 0, so hand 1 is out of range
("no data for this hand"), yet its remembered previous gesture is NOT
cleared -- the loop never visits index 1. -/
theorem holdManager_out_of_range_retained :
    alookup (runFrames defaultHoldConfig holdInit
      [⟨1, [some "01_palm", some "03_fist"], [], 0, fun _ => true⟩,
       ⟨2, [some "01_palm"], [], 0, fun _ => true⟩]).1.prev_gestures 1 =
      some "03_fist" := by
  norm_num [runFrames, hmUpdate, updateIndices, foldHands, processHand, defaultHoldConfig,
    holdInit, alookup, ainsert, aerase, akeys]

/-! ### C6: release_all -/

/-- C6 (amended): `release_all` never raises and is idempotent; when the
stop hook is callable it clears all three per-hand maps; when the hook is
absent it clears only the holding map, leaving the previous-gesture and
last-start-timestamp maps unchanged. -/
theorem release_all_spec (cfg : HoldConfig) (s : HoldMState) :
    (cfg.stop_callable = true → releaseAll cfg s = holdInit) ∧
    (cfg.stop_callable = false →
      (releaseAll cfg s).holding = [] ∧
      (releaseAll cfg s).prev_gestures = s.prev_gestures ∧
      (releaseAll cfg s).last_start_ts = s.last_start_ts) ∧
    releaseAll cfg (releaseAll cfg s) = releaseAll cfg s := by
  by_cases h : cfg.stop_callable = true <;> simp [releaseAll, h, holdInit]

/-- Witness for C6 (amended). -/
theorem release_all_spec_witness :
    (HoldConfig.mk true true "03_fist" (1/10)).stop_callable = true ∧
    releaseAll (HoldConfig.mk true true "03_fist" (1/10)) midState = holdInit :=
  ⟨rfl, (release_all_spec (HoldConfig.mk true true "03_fist" (1/10)) midState).1 rfl⟩

/-- C6 counterexample: with the stop hook absent (`stop_hold = None`), a
manager that has observed a fist keeps its previous-gesture map after
`release_all()` -- only `_holding` is cleared, so not all per-hand state is
cleared. -/
theorem release_all_not_all_cleared :
    (releaseAll (HoldConfig.mk true false "03_fist" (1/10))
      (hmUpdate (HoldConfig.mk true false "03_fist" (1/10)) holdInit
        (oneHandFrame 1 (some "03_fist"))).1).prev_gestures ≠ [] := by
  norm_num [releaseAll, hmUpdate, updateIndices, foldHands, processHand, holdInit,
    oneHandFrame, alookup, ainsert, aerase, akeys]

/-! ### Gesture dispatch (src/app/gestureActions/actionHandler.py)

`handleGesture(gesture, handedness, handIndex)` reads the module-level
tables `GESTURE_COOLDOWNS` / `GESTURE_ACTIONS` from
src/app/gestureActions/gestures.py and the module-level dictionary
`_last_trigger_time`, which is threaded explicitly here.  The bound action
is an arbitrary side-effecting callable; the truthiness of its return value
is supplied by the `actionResult` oracle, and the result records the
updated dictionary, whether the action was invoked, and the value
`handleGesture` returns (`False` whenever no action fired). -/

/-- The gesture cooldown table of gestures.py (seconds). -/
def GESTURE_COOLDOWNS : List (String × ℚ) :=
  [("Open_Palm", 1), ("Closed_Fist", 1), ("Thumb_Up", 0), ("Thumb_Down", 0),
   ("Peace", 0), ("02_l", 0), ("03_fist", 1/10)]

/-- The gesture names bound in the `GESTURE_ACTIONS` table of gestures.py. -/
def GESTURE_ACTIONS : List String :=
  ["Open_Palm", "Closed_Fist", "Thumb_Up", "Thumb_Down", "Victory", "02_l", "03_fist", "OK"]

/-- Python truthiness of an optional string (`None` and `""` are falsy). -/
def strTruthy : Option String → Bool
  | none => false
  | some s => !(s = "")

/-- `handleGesture`: returns the updated `_last_trigger_time` dictionary,
whether the bound action was invoked, and the returned value. -/
def handleGesture (st : List (String × ℚ)) (now : ℚ) (gesture : String)
    (handedness : Option String) (handIndex : Option Nat) (actionResult : Bool) :
    List (String × ℚ) × Bool × Bool :=
  let cooldown := (alookup GESTURE_COOLDOWNS gesture).getD 0
  let last := (alookup st gesture).getD 0
  if strTruthy handedness = true ∧ handIndex ≠ none then
    if gesture ∈ GESTURE_ACTIONS ∧ cooldown < now - last then
      (ainsert st gesture now, true, actionResult)
    else (st, false, false)
  else (st, false, false)

/-- C3: gesture dispatch debounce.  For a bound gesture `g` with cooldown
`c` (default 0 when `g` has no cooldown entry), once a call at time `t1`
fires the bound action, a second call at time `t2` with `t2 - t1 ≤ c` does
not invoke the action and leaves the last-trigger table unchanged, while a
second call with `t2 - t1 > c` invokes the action again; the firing call is
the one that updates the per-gesture last-trigger time to its `now`. -/
theorem handleGesture_debounce (st : List (String × ℚ)) (g : String)
    (hd : Option String) (idx : Option Nat) (t1 t2 : ℚ) (a1 a2 : Bool)
    (hfire : (handleGesture st t1 g hd idx a1).2.1 = true) :
    (handleGesture st t1 g hd idx a1).1 = ainsert st g t1 ∧
    (t2 - t1 ≤ (alookup GESTURE_COOLDOWNS g).getD 0 →
      (handleGesture (ainsert st g t1) t2 g hd idx a2).2.1 = false ∧
      (handleGesture (ainsert st g t1) t2 g hd idx a2).1 = ainsert st g t1) ∧
    (t2 - t1 > (alookup GESTURE_COOLDOWNS g).getD 0 →
      (handleGesture (ainsert st g t1) t2 g hd idx a2).2.1 = true ∧
      (handleGesture (ainsert st g t1) t2 g hd idx a2).1 = ainsert (ainsert st g t1) g t2) ∧
    (alookup GESTURE_COOLDOWNS g = none → (alookup GESTURE_COOLDOWNS g).getD 0 = 0) := by
  by_cases hargs : strTruthy hd = true ∧ idx ≠ none
  · by_cases hcond :
      g ∈ GESTURE_ACTIONS ∧ (alookup GESTURE_COOLDOWNS g).getD 0 < t1 - (alookup st g).getD 0
    · refine ⟨by simp [handleGesture, hargs, hcond], ?_, ?_, fun h => by simp [h]⟩
      · intro hle
        have hnot : ¬((alookup GESTURE_COOLDOWNS g).getD 0 <
            t2 - (alookup (ainsert st g t1) g).getD 0) := by
          rw [alookup_ainsert_self]
          simpa using not_lt.mpr hle
        have hiff : ¬(g ∈ GESTURE_ACTIONS ∧
            (alookup GESTURE_COOLDOWNS g).getD 0 <
              t2 - (alookup (ainsert st g t1) g).getD 0) := fun h => hnot h.2
        constructor <;> simp [handleGesture, hargs, hiff]
      · intro hgt
        have hyes : (alookup GESTURE_COOLDOWNS g).getD 0 <
            t2 - (alookup (ainsert st g t1) g).getD 0 := by
          rw [alookup_ainsert_self]
          simpa using hgt
        constructor <;> simp [handleGesture, hargs, hcond.1, hyes]
    · exfalso
      simp [handleGesture, hargs, hcond] at hfire
  · exfalso
    simp [handleGesture, hargs] at hfire

/-- Witness for C3: gesture "Thumb_Up" (cooldown 0) from an empty table,
first call at t=1 fires; calls at t=1 (within cooldown) and t=2 (elapsed)
behave as stated. -/
theorem handleGesture_debounce_witness :
    (handleGesture [] 1 "Thumb_Up" (some "Left") (some 0) false).2.1 = true ∧
    (handleGesture [] 1 "Thumb_Up" (some "Left") (some 0) false).1 =
      ainsert [] "Thumb_Up" 1 := by
  have hf : (handleGesture [] 1 "Thumb_Up" (some "Left") (some 0) false).2.1 = true := by
    simp [handleGesture, GESTURE_COOLDOWNS, GESTURE_ACTIONS, strTruthy, alookup, ainsert]
  exact ⟨hf,
    (handleGesture_debounce [] "Thumb_Up" (some "Left") (some 0) 1 2 false false hf).1⟩

/-- C10: `handleGesture` invokes no action unless a truthy handedness and a
non-`None` hand index are both supplied: with either missing it only logs,
returns `False`, and leaves the last-trigger table unchanged -- even for a
bound gesture whose cooldown has elapsed. -/
theorem handleGesture_requires_args (st : List (String × ℚ)) (now : ℚ) (g : String)
    (hd : Option String) (idx : Option Nat) (a : Bool)
    (h : strTruthy hd = false ∨ idx = none) :
    handleGesture st now g hd idx a = (st, false, false) := by
  have hargs : ¬(strTruthy hd = true ∧ idx ≠ none) := by
    rcases h with h | h <;> simp [h]
  simp [handleGesture, hargs]

/-- Witness for C10: bound gesture "Thumb_Up" with elapsed cooldown but no
hand index. -/
theorem handleGesture_requires_args_witness :
    (strTruthy (some "Left") = false ∨ (none : Option Nat) = none) ∧
    handleGesture [] 1 "Thumb_Up" (some "Left") none false = ([], false, false) :=
  ⟨Or.inr rfl,
    handleGesture_requires_args [] 1 "Thumb_Up" (some "Left") none false (Or.inr rfl)⟩

/-! ### OS press/release backend (src/app/gestureActions/gestures.py)

`start_hold` / `stop_hold` walk a fixed chain of backends (pyautogui,
xdotool, ydotool).  "Available and succeeds" is one boolean per mechanism
and operation: an installed backend whose call raises / returns nonzero
behaves exactly like a missing one (the exception is swallowed and the next
mechanism is tried), so one flag per (mechanism, operation) captures the
code's observable branching.  The module-level `_hold_state` dict is the
threaded state. -/

/-- The module-level `_hold_state` dictionary. -/
structure HoldBackendState where
  holding : Bool
  hand_index : Option Nat
  handedness : Option String
deriving DecidableEq

/-- Which backend mechanisms are available and succeed, per operation
(`Down` = press, `Up` = release). -/
structure BackendEnv where
  pyDown : Bool
  pyUp : Bool
  xdoDown : Bool
  xdoUp : Bool
  ydoDown : Bool
  ydoUp : Bool
deriving DecidableEq

/-- `start_hold(handedness, handIndex)`: no-op success if already holding,
else try pyautogui / xdotool / ydotool in order; returns the new state and
the boolean result. -/
def start_hold (env : BackendEnv) (st : HoldBackendState)
    (handedness : Option String) (handIndex : Option Nat) : HoldBackendState × Bool :=
  if st.holding then (st, true)
  else if env.pyDown then (⟨true, handIndex, handedness⟩, true)
  else if env.xdoDown then (⟨true, handIndex, handedness⟩, true)
  else if env.ydoDown then (⟨true, handIndex, handedness⟩, true)
  else (st, false)

/-- `stop_hold()`: no-op success if not holding, else try pyautogui /
xdotool / ydotool in order; returns the new state and the boolean result. -/
def stop_hold (env : BackendEnv) (st : HoldBackendState) : HoldBackendState × Bool :=
  if !st.holding then (st, true)
  else if env.pyUp then (⟨false, none, none⟩, true)
  else if env.xdoUp then (⟨false, none, none⟩, true)
  else if env.ydoUp then (⟨false, none, none⟩, true)
  else (st, false)

/-- C5: press/release idempotence and state discipline.  `start_hold` while
already holding and `stop_hold` while not holding return success without
consulting any backend and without touching state; the holding flag changes
only when the call reports success; and when every mechanism fails the call
returns `False` with the state unchanged. -/
theorem hold_backend_spec (env : BackendEnv) (st : HoldBackendState)
    (hd : Option String) (idx : Option Nat) :
    (st.holding = true → start_hold env st hd idx = (st, true)) ∧
    (st.holding = false → stop_hold env st = (st, true)) ∧
    ((start_hold env st hd idx).2 = false → (start_hold env st hd idx).1 = st) ∧
    ((stop_hold env st).2 = false → (stop_hold env st).1 = st) ∧
    ((start_hold env st hd idx).1.holding ≠ st.holding →
      (start_hold env st hd idx).2 = true) ∧
    ((stop_hold env st).1.holding ≠ st.holding → (stop_hold env st).2 = true) ∧
    (st.holding = false → env.pyDown = false → env.xdoDown = false → env.ydoDown = false →
      start_hold env st hd idx = (st, false)) ∧
    (st.holding = true → env.pyUp = false → env.xdoUp = false → env.ydoUp = false →
      stop_hold env st = (st, false)) := by
  cases hh : st.holding <;>
    cases hpd : env.pyDown <;> cases hxd : env.xdoDown <;> cases hyd : env.ydoDown <;>
    cases hpu : env.pyUp <;> cases hxu : env.xdoUp <;> cases hyu : env.ydoUp <;>
      simp [start_hold, stop_hold, hh, hpd, hxd, hyd, hpu, hxu, hyu]

/-- Witness for C5 at a concrete state and environment. -/
theorem hold_backend_spec_witness :
    ((HoldBackendState.mk true (some 0) (some "Left")).holding = true) ∧
    start_hold (BackendEnv.mk false false false false false false)
        (HoldBackendState.mk true (some 0) (some "Left")) (some "Right") (some 1) =
      (HoldBackendState.mk true (some 0) (some "Left"), true) :=
  ⟨rfl,
    (hold_backend_spec (BackendEnv.mk false false false false false false)
      (HoldBackendState.mk true (some 0) (some "Left")) (some "Right") (some 1)).1 rfl⟩

/-! ### ResultStore (src/app/handRecognition/result_store.py)

`set` stores `list(gestures)`, `list(handedness)`, `list(landmarks)`:
fresh outer lists whose ELEMENTS are the same Python objects.  Gesture and
handedness entries are immutable strings, but each landmark entry is a
mutable list object; to make sharing observable the landmark objects live
in an explicit heap `PyHeap` and the store keeps their references.  The
lock only serializes access (single snapshot consistency); it plays no role
in the sequential properties below. -/

/-- The heap of landmark list objects; a reference is an index. -/
structure PyHeap where
  cells : List (List (ℚ × ℚ))
deriving DecidableEq

/-- Dereference a landmark object. -/
def deref (hp : PyHeap) (r : Nat) : List (ℚ × ℚ) := hp.cells.getD r []

/-- In-place mutation of the landmark object behind reference `r`. -/
def heapSet (hp : PyHeap) (r : Nat) (v : List (ℚ × ℚ)) : PyHeap := ⟨hp.cells.set r v⟩

/-- The fields of `ResultStore` (the lock is omitted; see above). -/
structure ResultStore where
  gestures : List (Option String)
  handedness : List (Option String)
  landmarks : List Nat
  last_update_ts : ℚ
deriving DecidableEq

/-- A fresh `ResultStore()`. -/
def initResultStore : ResultStore := ⟨[], [], [], 0⟩

/-- `ResultStore.set(gestures, handedness, landmarks)` at time `ts`:
replaces the stored lists with copies of the outer lists (the landmark
references are copied, not the objects they point to). -/
def ResultStore.set (_ : ResultStore) (ts : ℚ) (g h : List (Option String))
    (l : List Nat) : ResultStore :=
  ⟨g, h, l, ts⟩

/-- What `snapshot()` returns, by value: the returned outer lists are fresh
copies, and the landmark entries are read through the heap `hp` current at
the time the snapshot is inspected. -/
def ResultStore.snapshotValue (s : ResultStore) (hp : PyHeap) :
    List (Option String) × List (Option String) × List (List (ℚ × ℚ)) × ℚ :=
  (s.gestures, s.handedness, s.landmarks.map (deref hp), s.last_update_ts)

theorem deref_heapSet_ne (hp : PyHeap) (r j : Nat) (v : List (ℚ × ℚ)) (h : j ≠ r) :
    deref (heapSet hp r v) j = deref hp j := by
  simp [deref, heapSet, List.getD_eq_getElem?_getD, List.getElem?_set_ne (Ne.symm h)]

/-- C4 (amended): after `set(g, h, l)` at time `ts`, `snapshot()` returns
sequences equal by value to the inputs (read through the heap as of the
`set`) plus the timestamp; mutating objects not passed to `set` leaves the
snapshot unchanged; but the landmark references themselves are stored
(shallow copy), so the snapshot reads whatever those shared objects
currently contain. -/
theorem resultStore_set_snapshot (s : ResultStore) (hp : PyHeap) (ts : ℚ)
    (g h : List (Option String)) (l : List Nat) :
    (ResultStore.set s ts g h l).snapshotValue hp = (g, h, l.map (deref hp), ts) ∧
    (∀ r v, r ∉ l →
      (ResultStore.set s ts g h l).snapshotValue (heapSet hp r v) =
        (ResultStore.set s ts g h l).snapshotValue hp) ∧
    (ResultStore.set s ts g h l).landmarks = l := by
  refine ⟨rfl, ?_, rfl⟩
  intro r v hr
  simp only [ResultStore.set, ResultStore.snapshotValue]
  have : ∀ j ∈ l, deref (heapSet hp r v) j = deref hp j := fun j hj =>
    deref_heapSet_ne hp r j v (fun hc => hr (hc ▸ hj))
  rw [List.map_congr_left this]

/-- Witness for C4 (amended) at concrete inputs. -/
theorem resultStore_set_snapshot_witness :
    (1 : Nat) ∉ [0] ∧
    (ResultStore.set initResultStore 5 [some "03_fist"] [some "Left"] [0]).snapshotValue
        (heapSet (PyHeap.mk [[(1/2, 1/2)]]) 1 [(0, 0)]) =
      (ResultStore.set initResultStore 5 [some "03_fist"] [some "Left"] [0]).snapshotValue
        (PyHeap.mk [[(1/2, 1/2)]]) :=
  ⟨by decide,
    (resultStore_set_snapshot initResultStore (PyHeap.mk [[(1/2, 1/2)]]) 5
      [some "03_fist"] [some "Left"] [0]).2.1 1 [(0, 0)] (by decide)⟩

/-- C4 counterexample: `set` copies only the outer lists (its own docstring
says "shallow copy"), so mutating the landmark list object after `set`
changes what `snapshot()` later returns by value -- the deep-copy isolation
stated by the claim does not hold. -/
theorem resultStore_nested_mutation_visible :
    (ResultStore.set initResultStore 5 [some "03_fist"] [some "Left"] [0]).snapshotValue
        (heapSet (PyHeap.mk [[(1/2, 1/2)]]) 0 [(0, 0)]) ≠
      (ResultStore.set initResultStore 5 [some "03_fist"] [some "Left"] [0]).snapshotValue
        (PyHeap.mk [[(1/2, 1/2)]]) := by
  simp only [ResultStore.set, ResultStore.snapshotValue, heapSet, initResultStore]
  norm_num [deref, List.getD_eq_getElem?_getD, Prod.ext_iff]

/-! ### Monitor geometry resolver (src/app/input/mouse_control.py)

`_get_monitor_geometry` parses `xrandr --current` into a list of
`(name, w, h, ox, oy, is_primary)` monitors and selects one; on failure it
falls back to `xdpyinfo` dimensions, else returns `None`.  The parsing /
subprocess layer is the environment (`GeoEnv`); the selection logic is
modelled verbatim.  Python's stable descending sort by area is modelled by
`insertionSort` with the reflexive total order "area not smaller". -/

/-- One parsed `xrandr` monitor line. -/
structure Monitor where
  name : String
  w : ℤ
  h : ℤ
  ox : ℤ
  oy : ℤ
  primary : Bool
deriving DecidableEq

/-- Module constant `TARGET_MONITOR_NAME = "DP-1"`. -/
def TARGET_MONITOR_NAME : Option String := some "DP-1"

/-- Module constant `PREFER_PRIMARY_MONITOR = True`. -/
def PREFER_PRIMARY_MONITOR : Bool := true

/-- Pixel area of a monitor. -/
def monArea (m : Monitor) : ℤ := m.w * m.h

/-- The geometry tuple `(w, h, ox, oy)` the resolver returns. -/
def monGeom (m : Monitor) : ℤ × ℤ × ℤ × ℤ := (m.w, m.h, m.ox, m.oy)

/-- Descending-area order used for the last-resort sort. -/
def areaDesc (a b : Monitor) : Prop := monArea b ≤ monArea a

instance : DecidableRel areaDesc :=
  fun a b => inferInstanceAs (Decidable (monArea b ≤ monArea a))

instance : IsTotal Monitor areaDesc := ⟨fun a b => le_total (monArea b) (monArea a)⟩

instance : IsTrans Monitor areaDesc := ⟨fun _ _ _ h1 h2 => le_trans h2 h1⟩

/-- The monitor-selection cascade of `_get_monitor_geometry`: configured
target name first, then primary flag, then offset (0,0), then largest
area. -/
def selectMonitor (target : Option String) (preferPrimary : Bool)
    (monitors : List Monitor) : Option (ℤ × ℤ × ℤ × ℤ) :=
  if monitors ≠ [] then
    match (match target with
           | some t => if t = "" then none
                       else monitors.find? (fun x : Monitor => x.name == t)
           | none => none) with
    | some m => some (monGeom m)
    | none =>
      match (if preferPrimary then monitors.find? (fun x : Monitor => x.primary)
             else none) with
      | some m => some (monGeom m)
      | none =>
        match monitors.find? (fun x : Monitor => x.ox == 0 && x.oy == 0) with
        | some m => some (monGeom m)
        | none =>
          match (monitors.insertionSort areaDesc).head? with
          | some m => some (monGeom m)
          | none => none
  else none

/-- The environment of `_get_monitor_geometry`: the parsed `xrandr` monitor
list when that query succeeds, and the parsed `xdpyinfo` dimensions. -/
structure GeoEnv where
  xrandr : Option (List Monitor)
  xdpyinfo : Option (ℤ × ℤ)
deriving DecidableEq

/-- `_get_monitor_geometry()`. -/
def get_monitor_geometry (env : GeoEnv) : Option (ℤ × ℤ × ℤ × ℤ) :=
  match (match env.xrandr with
         | some mons => selectMonitor TARGET_MONITOR_NAME PREFER_PRIMARY_MONITOR mons
         | none => none) with
  | some g => some g
  | none =>
    match env.xdpyinfo with
    | some wh => some (wh.1, wh.2, 0, 0)
    | none => none

theorem selectMonitor_target (ms : List Monitor) (t : String) (m : Monitor) (pp : Bool)
    (hne : ms ≠ []) (ht : ¬t = "") (hf : ms.find? (fun x => x.name == t) = some m) :
    selectMonitor (some t) pp ms = some (monGeom m) := by
  simp [selectMonitor, hne, ht, hf]

theorem selectMonitor_primary (ms : List Monitor) (t : String) (m : Monitor)
    (hne : ms ≠ []) (ht : ¬t = "")
    (hf0 : ms.find? (fun x => x.name == t) = none)
    (hp : ms.find? (fun x => x.primary) = some m) :
    selectMonitor (some t) true ms = some (monGeom m) := by
  simp [selectMonitor, hne, ht, hf0, hp]

theorem selectMonitor_origin (ms : List Monitor) (t : String) (m : Monitor)
    (hne : ms ≠ []) (ht : ¬t = "")
    (hf0 : ms.find? (fun x => x.name == t) = none)
    (hp0 : ms.find? (fun x => x.primary) = none)
    (ho : ms.find? (fun x => x.ox == 0 && x.oy == 0) = some m) :
    selectMonitor (some t) true ms = some (monGeom m) := by
  simp [selectMonitor, hne, ht, hf0, hp0, ho]

theorem selectMonitor_area (ms : List Monitor) (t : String) (m : Monitor)
    (hne : ms ≠ []) (ht : ¬t = "")
    (hf0 : ms.find? (fun x => x.name == t) = none)
    (hp0 : ms.find? (fun x => x.primary) = none)
    (ho0 : ms.find? (fun x => x.ox == 0 && x.oy == 0) = none)
    (hh : (ms.insertionSort areaDesc).head? = some m) :
    selectMonitor (some t) true ms = some (monGeom m) := by
  simp [selectMonitor, hne, ht, hf0, hp0, ho0, hh]

/-- The head of the descending-area sort is a maximal-area member. -/
theorem insertionSort_head_max (ms : List Monitor) (hne : ms ≠ []) :
    ∃ m ∈ ms, (ms.insertionSort areaDesc).head? = some m ∧
      ∀ m2 ∈ ms, monArea m2 ≤ monArea m := by
  have hperm : List.Perm (ms.insertionSort areaDesc) ms := List.perm_insertionSort areaDesc ms
  have hsorted : List.Sorted areaDesc (ms.insertionSort areaDesc) :=
    List.sorted_insertionSort areaDesc ms
  cases hl : ms.insertionSort areaDesc with
  | nil =>
    rw [hl] at hperm
    exact absurd hperm.symm.eq_nil hne
  | cons hd tl =>
    rw [hl] at hperm hsorted
    refine ⟨hd, hperm.mem_iff.mp (by simp), rfl, ?_⟩
    intro m2 hm2
    rcases List.mem_cons.mp (hperm.mem_iff.mpr hm2) with h | h
    · exact le_of_eq (by rw [h])
    · exact (List.sorted_cons.mp hsorted).1 m2 h

/-- C8: monitor selection policy.  With a nonempty configured target name
and primary preference enabled (the module configuration), the resolver
picks, in order: the monitor matching the target name, else a monitor
flagged primary, else a monitor at offset (0,0), else a monitor of largest
pixel area; the spec's concrete two-monitor example returns
`(2560, 1440, 1920, 0)` regardless of the primary flags; and
`_get_monitor_geometry` returns `None` when no detection mechanism
succeeds. -/
theorem monitor_selection_policy (ms : List Monitor) (t : String) (ht : t ≠ "") :
    ((∃ m ∈ ms, m.name = t) →
      ∃ m ∈ ms, m.name = t ∧ selectMonitor (some t) true ms = some (monGeom m)) ∧
    ((∀ m ∈ ms, m.name ≠ t) → (∃ m ∈ ms, m.primary = true) →
      ∃ m ∈ ms, m.primary = true ∧ selectMonitor (some t) true ms = some (monGeom m)) ∧
    ((∀ m ∈ ms, m.name ≠ t) → (∀ m ∈ ms, m.primary = false) →
      (∃ m ∈ ms, m.ox = 0 ∧ m.oy = 0) →
      ∃ m ∈ ms, m.ox = 0 ∧ m.oy = 0 ∧ selectMonitor (some t) true ms = some (monGeom m)) ∧
    ((∀ m ∈ ms, m.name ≠ t) → (∀ m ∈ ms, m.primary = false) →
      (∀ m ∈ ms, ¬(m.ox = 0 ∧ m.oy = 0)) → ms ≠ [] →
      ∃ m ∈ ms, (∀ m2 ∈ ms, monArea m2 ≤ monArea m) ∧
        selectMonitor (some t) true ms = some (monGeom m)) ∧
    (∀ b1 b2 : Bool,
      selectMonitor (some "DP-1") true
          [⟨"HDMI-1", 1920, 1080, 0, 0, b1⟩, ⟨"DP-1", 2560, 1440, 1920, 0, b2⟩] =
        some (2560, 1440, 1920, 0)) ∧
    get_monitor_geometry ⟨none, none⟩ = none := by
  refine ⟨?_, ?_, ?_, ?_, ?_, rfl⟩
  · rintro ⟨m0, hm0, hname⟩
    have hne : ms ≠ [] := List.ne_nil_of_mem hm0
    have hsome : (ms.find? (fun x : Monitor => x.name == t)).isSome :=
      List.find?_isSome.mpr ⟨m0, hm0, by simp [hname]⟩
    obtain ⟨m, hf⟩ := Option.isSome_iff_exists.mp hsome
    exact ⟨m, List.mem_of_find?_eq_some hf, by simpa using List.find?_some hf,
      selectMonitor_target ms t m true hne ht hf⟩
  · rintro hno ⟨m0, hm0, hprim⟩
    have hne : ms ≠ [] := List.ne_nil_of_mem hm0
    have hf0 : ms.find? (fun x : Monitor => x.name == t) = none :=
      List.find?_eq_none.mpr fun x hx => by simp [hno x hx]
    have hsome : (ms.find? (fun x : Monitor => x.primary)).isSome :=
      List.find?_isSome.mpr ⟨m0, hm0, hprim⟩
    obtain ⟨m, hf⟩ := Option.isSome_iff_exists.mp hsome
    exact ⟨m, List.mem_of_find?_eq_some hf, List.find?_some hf,
      selectMonitor_primary ms t m hne ht hf0 hf⟩
  · rintro hno hnp ⟨m0, hm0, hox, hoy⟩
    have hne : ms ≠ [] := List.ne_nil_of_mem hm0
    have hf0 : ms.find? (fun x : Monitor => x.name == t) = none :=
      List.find?_eq_none.mpr fun x hx => by simp [hno x hx]
    have hp0 : ms.find? (fun x : Monitor => x.primary) = none :=
      List.find?_eq_none.mpr fun x hx => by simp [hnp x hx]
    have hsome : (ms.find? (fun x : Monitor => x.ox == 0 && x.oy == 0)).isSome :=
      List.find?_isSome.mpr ⟨m0, hm0, by simp [hox, hoy]⟩
    obtain ⟨m, hf⟩ := Option.isSome_iff_exists.mp hsome
    have hprop := List.find?_some hf
    simp only [Bool.and_eq_true, beq_iff_eq] at hprop
    exact ⟨m, List.mem_of_find?_eq_some hf, hprop.1, hprop.2,
      selectMonitor_origin ms t m hne ht hf0 hp0 hf⟩
  · intro hno hnp hno0 hne
    have hf0 : ms.find? (fun x : Monitor => x.name == t) = none :=
      List.find?_eq_none.mpr fun x hx => by simp [hno x hx]
    have hp0 : ms.find? (fun x : Monitor => x.primary) = none :=
      List.find?_eq_none.mpr fun x hx => by simp [hnp x hx]
    have ho0 : ms.find? (fun x : Monitor => x.ox == 0 && x.oy == 0) = none :=
      List.find?_eq_none.mpr fun x hx => by
        have := hno0 x hx
        simp only [Bool.and_eq_true, beq_iff_eq]
        tauto
    obtain ⟨m, hm, hh, hmax⟩ := insertionSort_head_max ms hne
    exact ⟨m, hm, hmax, selectMonitor_area ms t m hne ht hf0 hp0 ho0 hh⟩
  · intro b1 b2
    cases b1 <;> cases b2 <;> decide

/-- Witness for C8: the spec's two-monitor example with target "DP-1". -/
theorem monitor_selection_policy_witness :
    ("DP-1" : String) ≠ "" ∧
    (∃ m ∈ [Monitor.mk "HDMI-1" 1920 1080 0 0 false,
            Monitor.mk "DP-1" 2560 1440 1920 0 true], m.name = "DP-1") ∧
    (∃ m ∈ [Monitor.mk "HDMI-1" 1920 1080 0 0 false,
            Monitor.mk "DP-1" 2560 1440 1920 0 true], m.name = "DP-1" ∧
      selectMonitor (some "DP-1") true
          [Monitor.mk "HDMI-1" 1920 1080 0 0 false,
           Monitor.mk "DP-1" 2560 1440 1920 0 true] = some (monGeom m)) :=
  ⟨by decide, ⟨Monitor.mk "DP-1" 2560 1440 1920 0 true, by decide, by decide⟩,
    (monitor_selection_policy
      [Monitor.mk "HDMI-1" 1920 1080 0 0 false, Monitor.mk "DP-1" 2560 1440 1920 0 true]
      "DP-1" (by decide)).1
      ⟨Monitor.mk "DP-1" 2560 1440 1920 0 true, by decide, by decide⟩⟩

/-! ### Pointer mapping (src/app/input/mouse_control.py `move_mouse_normalized`
and src/app/handRecognition/tracker.py `Tracker.track_hand`)

`move_mouse_normalized` is modelled as returning the absolute pixel
coordinate it dispatches to the OS (via `hyprctl dispatch movecursor` or
`move_mouse_abs`), or `none` when no monitor geometry can be determined and
the move is skipped.  Python's `int()` truncation is `Int.floor` here: its
arguments are products of a clamped-to-[0,1] coordinate with a
`max(0, dim-1)` factor, hence never negative, where truncation and floor
agree. -/

/-- `max(0.0, min(1.0, v))`. -/
def clamp01 (q : ℚ) : ℚ := max 0 (min 1 q)

/-- The `fallback_screen_size` argument: a `(w,h,ox,oy)` or `(w,h)` tuple. -/
inductive FallBox where
  | four (w h ox oy : ℤ)
  | two (w h : ℤ)
deriving DecidableEq

/-- One monitor dict from `hyprctl -j monitors`. -/
structure HyprMon where
  name : String
  x : ℤ
  y : ℤ
  w : ℤ
  h : ℤ
  focused : Bool
deriving DecidableEq

/-- The environment `move_mouse_normalized` runs in: the parsed hyprctl
monitor list when `hyprctl` is present and its query succeeds, whether the
hyprctl cursor dispatch succeeds, the xrandr/xdpyinfo environment of
`_get_monitor_geometry`, the pyautogui total screen size, and the parsed
monitor list of `detect_monitors()` used by the tracker. -/
structure MoveEnv where
  hypr : Option (List HyprMon)
  hyprDispatchOk : Bool
  geo : GeoEnv
  pyautoguiSize : Option (ℤ × ℤ)
  detectMons : Option (List Monitor)

/-- `move_mouse_normalized(nx, ny, fallback_screen_size)`: the absolute
pixel coordinate dispatched, or `none` when the move is skipped. -/
def move_mouse_normalized (env : MoveEnv) (nx0 ny0 : ℚ) (fallback : Option FallBox) :
    Option (ℤ × ℤ) :=
  let nx := clamp01 nx0
  let ny := clamp01 ny0
  let fb : Option (ℤ × ℤ × ℤ × ℤ) :=
    match fallback with
    | some (FallBox.four w h ox oy) => some (w, h, ox, oy)
    | some (FallBox.two w h) => some (w, h, 0, 0)
    | none => none
  let hyprResult : Option (ℤ × ℤ) :=
    match env.hypr with
    | some mons =>
      match (match TARGET_MONITOR_NAME with
             | some t => if t = "" then none
                         else mons.find? (fun c : HyprMon => c.name == t)
             | none => none).orElse
            (fun _ => (mons.find? (fun c : HyprMon => c.focused)).orElse
              (fun _ => mons.head?)) with
      | some c =>
        if env.hyprDispatchOk then
          some (c.x + ⌊nx * ((max 0 (c.w - 1) : ℤ) : ℚ)⌋,
                c.y + ⌊ny * ((max 0 (c.h - 1) : ℤ) : ℚ)⌋)
        else none
      | none => none
    | none => none
  match hyprResult with
  | some p => some p
  | none =>
    match (match get_monitor_geometry env.geo with
           | some g => some g
           | none =>
             match fb with
             | some b => some b
             | none =>
               match env.pyautoguiSize with
               | some wh => if wh.1 ≠ 0 ∧ wh.2 ≠ 0 then some (wh.1, wh.2, 0, 0) else none
               | none => none) with
    | some (mw, mh, ox, oy) =>
      some (max 0 (ox + ⌊nx * ((max 0 (mw - 1) : ℤ) : ℚ)⌋),
            max 0 (oy + ⌊ny * ((max 0 (mh - 1) : ℤ) : ℚ)⌋))
    | none => none

/-- Constructor-time configuration of `Tracker`. -/
structure TrackerCfg where
  smooth_alpha : ℚ
  sensitivity : ℚ
  invert_y : Bool
  track_gesture_name : String

/-- `Tracker.track_hand(hand_index, hand_landmarks, gesture_name,
monitor_box, require_gesture)`: returns the updated per-hand smoothing
dictionary and the dispatched pixel coordinate (`none` when gated off,
when the landmarks are too short, or when the move was skipped). -/
def track_hand (cfg : TrackerCfg) (env : MoveEnv) (st : List (Nat × (ℚ × ℚ)))
    (hand_index : Nat) (lms : List (ℚ × ℚ)) (gesture_name : Option String)
    (monitor_box : Option FallBox) (require_gesture : Bool) :
    List (Nat × (ℚ × ℚ)) × Option (ℤ × ℤ) :=
  if require_gesture = true ∧ gesture_name ≠ none ∧
      gesture_name ≠ some cfg.track_gesture_name then (st, none)
  else if lms.length ≤ 8 then (st, none)
  else
    let lm := lms.getD 8 (0, 0)
    let nx0 := lm.1
    let ny0 := if cfg.invert_y then 1 - lm.2 else lm.2
    let nx := clamp01 (1/2 + (nx0 - 1/2) * cfg.sensitivity)
    let ny := clamp01 (1/2 + (ny0 - 1/2) * cfg.sensitivity)
    let prev := (alookup st hand_index).getD (nx, ny)
    let sx := prev.1 * (1 - cfg.smooth_alpha) + nx * cfg.smooth_alpha
    let sy := prev.2 * (1 - cfg.smooth_alpha) + ny * cfg.smooth_alpha
    let st1 := ainsert st hand_index (sx, sy)
    let fb : Option FallBox :=
      match monitor_box with
      | some b => some b
      | none =>
        match env.detectMons with
        | some mons =>
          match (mons.find? (fun x : Monitor => x.name == "DP-1")).orElse
                (fun _ => (mons.find? (fun x : Monitor => x.primary)).orElse
                  (fun _ => mons.head?)) with
          | some c => some (FallBox.four c.w c.h c.ox c.oy)
          | none => none
        | none => none
    (st1, move_mouse_normalized env sx sy fb)

theorem move_box_endpoints (env : MoveEnv) (hh : env.hypr = none)
    (hg : get_monitor_geometry env.geo = none) (nx ny : ℚ) :
    move_mouse_normalized env nx ny (some (FallBox.four 1920 1080 0 0)) =
      some (max 0 ⌊clamp01 nx * 1919⌋, max 0 ⌊clamp01 ny * 1079⌋) := by
  simp [move_mouse_normalized, hh, hg]

/-- C9 (amended): when `hyprctl` is absent and the xrandr/xdpyinfo
geometry query fails -- only then is the explicit monitor box used, since a
successful query overrides the box -- tracking with sensitivity 1.0, no Y
inversion, fresh smoothing state and explicit box `(1920,1080,0,0)` maps
the fingertip at normalized (0,0) to pixel (0,0) and at (1,1) to
(1919,1079), via `offset + int(smoothed * (dim-1))`. -/
theorem tracker_endpoints (a : ℚ) (env : MoveEnv) (hh : env.hypr = none)
    (hg : get_monitor_geometry env.geo = none) :
    (track_hand ⟨a, 1, false, "06_index"⟩ env [] 0 (List.replicate 9 ((0:ℚ), (0:ℚ)))
        none (some (FallBox.four 1920 1080 0 0)) true).2 = some (0, 0) ∧
    (track_hand ⟨a, 1, false, "06_index"⟩ env [] 0 (List.replicate 9 ((1:ℚ), (1:ℚ)))
        none (some (FallBox.four 1920 1080 0 0)) true).2 = some (1919, 1079) := by
  constructor <;>
    · simp only [track_hand]
      norm_num [clamp01, alookup, move_box_endpoints env hh hg]

/-- Witness for C9 (amended) in an environment with no detection mechanism
available. -/
theorem tracker_endpoints_witness :
    (MoveEnv.mk none true (GeoEnv.mk none none) none none).hypr = none ∧
    get_monitor_geometry (MoveEnv.mk none true (GeoEnv.mk none none) none none).geo = none ∧
    (track_hand ⟨3/5, 1, false, "06_index"⟩
        (MoveEnv.mk none true (GeoEnv.mk none none) none none) [] 0
        (List.replicate 9 ((0:ℚ), (0:ℚ)))
        none (some (FallBox.four 1920 1080 0 0)) true).2 = some (0, 0) :=
  ⟨rfl, rfl,
    (tracker_endpoints (3/5) (MoveEnv.mk none true (GeoEnv.mk none none) none none)
      rfl rfl).1⟩

/-- C9 counterexample: the explicit monitor box does NOT take priority over
queried geometry.  With the same explicit box `(1920,1080,0,0)` but a
successful xrandr query selecting `(2560,1440,1920,0)` (the configured
target monitor), the fingertip at normalized (0,0) is dispatched to pixel
`(1920, 0)`, not `(0, 0)`: the queried geometry overrides the box. -/
theorem tracker_explicit_box_overridden :
    (track_hand ⟨3/5, 1, false, "06_index"⟩
        (MoveEnv.mk none true
          (GeoEnv.mk (some [Monitor.mk "DP-1" 2560 1440 1920 0 true]) none) none none)
        [] 0 (List.replicate 9 ((0:ℚ), (0:ℚ)))
        none (some (FallBox.four 1920 1080 0 0)) true).2 = some (1920, 0) ∧
    some ((1920 : ℤ), (0 : ℤ)) ≠ some ((0 : ℤ), (0 : ℤ)) := by
  constructor
  · simp only [track_hand]
    norm_num [clamp01, alookup, move_mouse_normalized, get_monitor_geometry,
      selectMonitor, TARGET_MONITOR_NAME, PREFER_PRIMARY_MONITOR, monGeom]
    simp
  · decide
